import Mathlib

/-!
Shallow embedding of `scripts/great_circle.py` over the real numbers, with
verification of the specification's claims about coordinate validation, the
haversine distance computation and the initial-bearing computation.

Python's fallible math operations (`math.sqrt`, `math.asin`, float division,
float `%`, `round`) are modelled explicitly: a `ValueError` (math domain
error) and a `ZeroDivisionError` become the two constructors of `PyError`,
and fallible steps return `Except PyError _`.  `round` is modelled with
Python's round-half-to-even tie rule, `a % b` as `a - b * ⌊a / b⌋`.
-/

namespace GreatCircle

open Real

/-- A raised Python exception relevant to the numeric core: `ValueError`
(math domain error, from `math.sqrt` or `math.asin` outside their domain)
or `ZeroDivisionError` (float division by zero). -/
inductive PyError where
  | mathDomain
  | zeroDivision
deriving DecidableEq

/-- The `ValidationError` raised by `Coordinate.__post_init__`; each
constructor records the offending field and carries its offending value,
modelling the message text that names both. -/
inductive ValidationError where
  | latitudeRange (value : ℝ)
  | longitudeRange (value : ℝ)

/-- The `Coordinate` dataclass: latitude and longitude in decimal degrees. -/
structure Coordinate where
  latitude : ℝ
  longitude : ℝ

/-- The great-circle distances returned by `haversine_distance` as a dict
with keys `kilometers`, `statute_miles`, `nautical_miles`. -/
structure DistanceResult where
  kilometers : ℝ
  statute_miles : ℝ
  nautical_miles : ℝ

/-- The range invariant checked by `Coordinate.__post_init__`. -/
def Coordinate.Valid (c : Coordinate) : Prop :=
  -90 ≤ c.latitude ∧ c.latitude ≤ 90 ∧ -180 ≤ c.longitude ∧ c.longitude ≤ 180

/-- Construction of a `Coordinate`, running the `__post_init__` validation:
latitude is checked first, then longitude, and the first out-of-range field
raises `ValidationError` naming that field and its value. -/
noncomputable def mkCoordinate (lat lon : ℝ) : Except ValidationError Coordinate :=
  if ¬(-90 ≤ lat ∧ lat ≤ 90) then .error (.latitudeRange lat)
  else if ¬(-180 ≤ lon ∧ lon ≤ 180) then .error (.longitudeRange lon)
  else .ok ⟨lat, lon⟩

/-- Python's `math.radians`: degrees to radians. -/
noncomputable def radians (deg : ℝ) : ℝ := deg * π / 180

/-- Python's `math.degrees`: radians to degrees. -/
noncomputable def degrees (rad : ℝ) : ℝ := rad * 180 / π

/-- The `Coordinate.to_radians` method: both fields converted to radians. -/
noncomputable def Coordinate.to_radians (c : Coordinate) : ℝ × ℝ :=
  (radians c.latitude, radians c.longitude)

/-- Python's `math.sqrt`, which raises `ValueError` on negative input. -/
noncomputable def pySqrt (x : ℝ) : Except PyError ℝ :=
  if 0 ≤ x then .ok (Real.sqrt x) else .error .mathDomain

/-- Python's `math.asin`, which raises `ValueError` outside `[-1, 1]`. -/
noncomputable def pyAsin (x : ℝ) : Except PyError ℝ :=
  if -1 ≤ x ∧ x ≤ 1 then .ok (Real.arcsin x) else .error .mathDomain

/-- Python float division, which raises `ZeroDivisionError` when the
divisor is zero. -/
noncomputable def pyDiv (a b : ℝ) : Except PyError ℝ :=
  if b = 0 then .error .zeroDivision else .ok (a / b)

/-- Python float `a % b`, equal to `a - b * floor (a / b)` for `b > 0`. -/
noncomputable def pyMod (a b : ℝ) : ℝ := a - b * ⌊a / b⌋

/-- Rounding to the nearest integer with Python's round-half-to-even tie
rule. -/
noncomputable def roundHalfEven (x : ℝ) : ℤ :=
  if Int.fract x = 1 / 2 then 2 * ⌊x / 2 + 1 / 2⌋ else round x

/-- Python's `round(x, n)`: round to `n` decimal places, ties to even. -/
noncomputable def pyRound (x : ℝ) (n : ℕ) : ℝ :=
  (roundHalfEven (x * 10 ^ n) : ℝ) / 10 ^ n

/-- Python's `math.atan2 y x`: the angle of the point `(x, y)` in
`(-π, π]`, with `atan2 0 0 = 0`. -/
noncomputable def atan2 (y x : ℝ) : ℝ :=
  if 0 < x then arctan (y / x)
  else if x < 0 ∧ 0 ≤ y then arctan (y / x) + π
  else if x < 0 ∧ y < 0 then arctan (y / x) - π
  else if x = 0 ∧ 0 < y then π / 2
  else if x = 0 ∧ y < 0 then -(π / 2)
  else 0

/-- The haversine intermediate `a` of `haversine_distance`, written on the
radian values of the two coordinates. -/
noncomputable def hav_a (origin destination : Coordinate) : ℝ :=
  sin ((radians destination.latitude - radians origin.latitude) / 2) ^ 2 +
    cos (radians origin.latitude) * cos (radians destination.latitude) *
      sin ((radians destination.longitude - radians origin.longitude) / 2) ^ 2

/-- The central angle `c = 2 * asin (sqrt a)` exactly as the code computes
it, with no clamping of `a`. -/
noncomputable def central_angle (origin destination : Coordinate) : ℝ :=
  2 * arcsin (Real.sqrt (hav_a origin destination))

/-- Modelled from the spec: the clamp `clamp(a, 0, 1)` that section 4.2 of
the specification says guards the square root; the code itself has no such
clamp. -/
noncomputable def clamp (x lo hi : ℝ) : ℝ := max lo (min hi x)

/-- Modelled from the spec: the central angle as the specification words
it, `2 * asin (sqrt (clamp (a, 0, 1)))`. -/
noncomputable def spec_central_angle (origin destination : Coordinate) : ℝ :=
  2 * arcsin (Real.sqrt (clamp (hav_a origin destination) 0 1))

/-- `haversine_distance`: both points to radians, the haversine formula
for `a`, `c = 2 * asin (sqrt a)` (where `sqrt` and `asin` may raise), and
the three distances rounded to 3 decimal places. -/
noncomputable def haversine_distance (origin destination : Coordinate) :
    Except PyError DistanceResult :=
  let (origin_lat_rad, origin_lon_rad) := origin.to_radians
  let (dest_lat_rad, dest_lon_rad) := destination.to_radians
  let dlon := dest_lon_rad - origin_lon_rad
  let dlat := dest_lat_rad - origin_lat_rad
  let a := sin (dlat / 2) ^ 2 + cos origin_lat_rad * cos dest_lat_rad * sin (dlon / 2) ^ 2
  (pySqrt a).bind fun r =>
  (pyAsin r).bind fun t =>
  let c := 2 * t
  Except.ok ⟨pyRound (c * 6371.0) 3, pyRound (c * 3959.0) 3, pyRound (c * 3440.1) 3⟩

/-- The `x` intermediate of `calculate_initial_bearing`. -/
noncomputable def bearing_x (origin destination : Coordinate) : ℝ :=
  sin (radians destination.longitude - radians origin.longitude) *
    cos (radians destination.latitude)

/-- The `y` intermediate of `calculate_initial_bearing`. -/
noncomputable def bearing_y (origin destination : Coordinate) : ℝ :=
  cos (radians origin.latitude) * sin (radians destination.latitude) -
    sin (radians origin.latitude) * cos (radians destination.latitude) *
      cos (radians destination.longitude - radians origin.longitude)

/-- `calculate_initial_bearing`: the code evaluates the `asin`-based form
`degrees (asin (x / sqrt (x^2 + y^2)))` three times (each time the division
may raise `ZeroDivisionError`), overwrites it with the `atan2`-based
bearing, normalizes into `[0, 360)` and rounds to one decimal place. -/
noncomputable def calculate_initial_bearing (origin destination : Coordinate) :
    Except PyError ℝ :=
  let (origin_lat_rad, origin_lon_rad) := origin.to_radians
  let (dest_lat_rad, dest_lon_rad) := destination.to_radians
  let dlon := dest_lon_rad - origin_lon_rad
  let x := sin dlon * cos dest_lat_rad
  let y := cos origin_lat_rad * sin dest_lat_rad - sin origin_lat_rad * cos dest_lat_rad * cos dlon
  (pySqrt (x ^ 2 + y ^ 2)).bind fun s1 =>
  (pyDiv x s1).bind fun q1 =>
  (pyAsin q1).bind fun t1 =>
  let initial_bearing := degrees t1
  (pySqrt (x ^ 2 + y ^ 2)).bind fun s2 =>
  (pyDiv x s2).bind fun q2 =>
  (pyAsin q2).bind fun t2 =>
  let bearing1 := pyMod (degrees t2 + 360) 360
  (pySqrt (x ^ 2 + y ^ 2)).bind fun s3 =>
  (pyDiv x s3).bind fun q3 =>
  (pyAsin q3).bind fun t3 =>
  let bearing2 := degrees t3
  let bearing3 := pyMod (bearing2 + 360) 360
  let bearing4 := atan2 x y
  let bearing5 := pyMod (degrees bearing4 + 360) 360
  Except.ok (pyRound bearing5 1)

/-- Modelled from the spec (claim C10's simplified implementation): only
the `atan2`-based bearing, normalized and rounded. -/
noncomputable def bearing_atan2_only (origin destination : Coordinate) : ℝ :=
  pyRound (pyMod (degrees (atan2 (bearing_x origin destination)
    (bearing_y origin destination)) + 360) 360) 1

/-- The rounding of `roundHalfEven` moves a value by at most one half. -/
theorem abs_roundHalfEven_sub (x : ℝ) : |(roundHalfEven x : ℝ) - x| ≤ 1 / 2 := by
  rw [roundHalfEven]
  split
  case isTrue h =>
    have hx : x = (⌊x⌋ : ℝ) + 1 / 2 := by
      have hf := Int.floor_add_fract x
      rw [h] at hf
      linarith
    have hk1 : (⌊x / 2 + 1 / 2⌋ : ℝ) ≤ x / 2 + 1 / 2 := Int.floor_le _
    have hk2 : x / 2 + 1 / 2 - 1 < (⌊x / 2 + 1 / 2⌋ : ℝ) := Int.sub_one_lt_floor _
    have hub : 2 * ⌊x / 2 + 1 / 2⌋ < ⌊x⌋ + 2 := by
      have h1 : 2 * (⌊x / 2 + 1 / 2⌋ : ℝ) < (⌊x⌋ : ℝ) + 2 := by linarith
      exact_mod_cast h1
    have hlb : ⌊x⌋ - 1 < 2 * ⌊x / 2 + 1 / 2⌋ := by
      have h1 : (⌊x⌋ : ℝ) - 1 < 2 * (⌊x / 2 + 1 / 2⌋ : ℝ) := by linarith
      exact_mod_cast h1
    have hfl : (⌊x⌋ : ℝ) = x - 1 / 2 := by linarith
    have hcases : 2 * ⌊x / 2 + 1 / 2⌋ = ⌊x⌋ ∨ 2 * ⌊x / 2 + 1 / 2⌋ = ⌊x⌋ + 1 := by omega
    rcases hcases with hc | hc
    · rw [hc, hfl, show x - 1 / 2 - x = -(1 / 2) by ring, abs_neg,
        abs_of_nonneg (by norm_num : (0 : ℝ) ≤ 1 / 2)]
    · rw [hc]
      push_cast
      rw [hfl, show x - 1 / 2 + 1 - x = 1 / 2 by ring,
        abs_of_nonneg (by norm_num : (0 : ℝ) ≤ 1 / 2)]
  case isFalse h =>
    rw [abs_sub_comm]
    exact abs_sub_round x

/-- `roundHalfEven` fixes the integers. -/
theorem roundHalfEven_intCast (k : ℤ) : roundHalfEven (k : ℝ) = k := by
  rw [roundHalfEven, if_neg, round_intCast]
  rw [Int.fract_intCast]
  norm_num

/-- `roundHalfEven` sends nonnegative reals to nonnegative integers. -/
theorem roundHalfEven_nonneg {x : ℝ} (hx : 0 ≤ x) : 0 ≤ roundHalfEven x := by
  have h := abs_roundHalfEven_sub x
  rw [abs_le] at h
  have : ((-1 : ℤ) : ℝ) < (roundHalfEven x : ℝ) := by push_cast; linarith [h.1]
  have := Int.cast_lt.mp this
  omega

/-- The rounding of `pyRound _ n` moves a value by at most half of the last
kept decimal place. -/
theorem abs_pyRound_sub (x : ℝ) (n : ℕ) : |pyRound x n - x| ≤ 1 / (2 * 10 ^ n) := by
  have hpow : (0 : ℝ) < 10 ^ n := by positivity
  rw [pyRound]
  have h := abs_roundHalfEven_sub (x * 10 ^ n)
  have hrw : (roundHalfEven (x * 10 ^ n) : ℝ) / 10 ^ n - x =
      ((roundHalfEven (x * 10 ^ n) : ℝ) - x * 10 ^ n) / 10 ^ n := by
    field_simp
    ring
  rw [hrw, abs_div, abs_of_pos hpow, div_le_div_iff hpow (by positivity)]
  calc |(roundHalfEven (x * 10 ^ n) : ℝ) - x * 10 ^ n| * (2 * 10 ^ n)
      ≤ (1 / 2) * (2 * 10 ^ n) := by
        apply mul_le_mul_of_nonneg_right h (by positivity)
    _ = 1 * 10 ^ n := by ring

/-- `pyRound` preserves nonnegativity. -/
theorem pyRound_nonneg {x : ℝ} (hx : 0 ≤ x) (n : ℕ) : 0 ≤ pyRound x n := by
  rw [pyRound]
  apply div_nonneg _ (by positivity)
  exact_mod_cast roundHalfEven_nonneg (by positivity)

/-- `pyRound` fixes zero. -/
theorem pyRound_zero (n : ℕ) : pyRound 0 n = 0 := by
  rw [pyRound, zero_mul]
  rw [show ((0 : ℝ) = ((0 : ℤ) : ℝ)) by norm_num, roundHalfEven_intCast]
  norm_num

/-- For a positive modulus, `pyMod` lands in `[0, b)`. -/
theorem pyMod_nonneg_lt {a b : ℝ} (hb : 0 < b) : 0 ≤ pyMod a b ∧ pyMod a b < b := by
  rw [pyMod]
  constructor
  · have h1 : b * ⌊a / b⌋ ≤ b * (a / b) :=
      mul_le_mul_of_nonneg_left (Int.floor_le _) hb.le
    rw [mul_div_cancel₀ a hb.ne'] at h1
    linarith
  · have h2 : a / b < ⌊a / b⌋ + 1 := Int.lt_floor_add_one _
    have h3 : b * (a / b) < b * (⌊a / b⌋ + 1) := by
      exact mul_lt_mul_of_pos_left h2 hb
    rw [mul_div_cancel₀ a hb.ne'] at h3
    nlinarith

/-- Binding an `Except.ok` value just applies the continuation. -/
theorem bind_ok_eq {ε α β : Type} (a : α) (f : α → Except ε β) :
    (Except.ok a : Except ε α).bind f = f a := rfl

/-- `haversine_distance` written through the named intermediate `hav_a`. -/
theorem haversine_distance_def (origin destination : Coordinate) :
    haversine_distance origin destination =
      (pySqrt (hav_a origin destination)).bind fun r =>
      (pyAsin r).bind fun t =>
      Except.ok ⟨pyRound (2 * t * 6371.0) 3, pyRound (2 * t * 3959.0) 3,
        pyRound (2 * t * 3440.1) 3⟩ := rfl

/-- Latitudes within `[-90, 90]` have nonnegative cosine in radians. -/
theorem cos_radians_nonneg {t : ℝ} (h1 : -90 ≤ t) (h2 : t ≤ 90) :
    0 ≤ cos (radians t) := by
  apply Real.cos_nonneg_of_mem_Icc
  rw [Set.mem_Icc, radians]
  have hpi := Real.pi_pos
  constructor
  · nlinarith
  · nlinarith

/-- The haversine intermediate is nonnegative for valid coordinates. -/
theorem hav_a_nonneg (origin destination : Coordinate)
    (ho : origin.Valid) (hd : destination.Valid) : 0 ≤ hav_a origin destination := by
  rw [hav_a]
  have c1 := cos_radians_nonneg ho.1 ho.2.1
  have c2 := cos_radians_nonneg hd.1 hd.2.1
  exact add_nonneg (sq_nonneg _) (mul_nonneg (mul_nonneg c1 c2) (sq_nonneg _))

/-- The haversine intermediate is at most one for valid coordinates. -/
theorem hav_a_le_one (origin destination : Coordinate)
    (ho : origin.Valid) (hd : destination.Valid) : hav_a origin destination ≤ 1 := by
  rw [hav_a]
  set l1 := radians origin.latitude with hl1
  set l2 := radians destination.latitude with hl2
  set t := radians destination.longitude - radians origin.longitude with ht
  have e1 : sin ((l2 - l1) / 2) ^ 2 = 1 / 2 - cos (l2 - l1) / 2 := by
    rw [Real.sin_sq_eq_half_sub, show 2 * ((l2 - l1) / 2) = l2 - l1 by ring]
  have e2 : sin (t / 2) ^ 2 = 1 / 2 - cos t / 2 := by
    rw [Real.sin_sq_eq_half_sub, show 2 * (t / 2) = t by ring]
  have e3 : cos (l2 - l1) = cos l2 * cos l1 + sin l2 * sin l1 := Real.cos_sub l2 l1
  have c1 : 0 ≤ cos l1 := cos_radians_nonneg ho.1 ho.2.1
  have c2 : 0 ≤ cos l2 := cos_radians_nonneg hd.1 hd.2.1
  have p1 : sin l1 ^ 2 + cos l1 ^ 2 = 1 := Real.sin_sq_add_cos_sq l1
  have p2 : sin l2 ^ 2 + cos l2 ^ 2 = 1 := Real.sin_sq_add_cos_sq l2
  have hct : -1 ≤ cos t := Real.neg_one_le_cos t
  rw [e1, e2, e3]
  nlinarith [sq_nonneg (sin l1 + sin l2), sq_nonneg (cos l1 - cos l2),
    mul_nonneg c1 c2,
    mul_nonneg (mul_nonneg c1 c2) (show (0 : ℝ) ≤ 1 + cos t by linarith)]

/-- The central angle the code computes is nonnegative. -/
theorem central_angle_nonneg (origin destination : Coordinate) :
    0 ≤ central_angle origin destination := by
  rw [central_angle]
  have := Real.arcsin_nonneg.mpr (Real.sqrt_nonneg (hav_a origin destination))
  linarith

/-- When the haversine intermediate lies in `[0, 1]`, the computation
succeeds with the three rounded scaled central angles. -/
theorem haversine_eq (origin destination : Coordinate)
    (h0 : 0 ≤ hav_a origin destination) (h1 : hav_a origin destination ≤ 1) :
    haversine_distance origin destination =
      .ok ⟨pyRound (central_angle origin destination * 6371.0) 3,
        pyRound (central_angle origin destination * 3959.0) 3,
        pyRound (central_angle origin destination * 3440.1) 3⟩ := by
  rw [haversine_distance_def origin destination, pySqrt, if_pos h0, bind_ok_eq]
  have hb : -1 ≤ Real.sqrt (hav_a origin destination) ∧
      Real.sqrt (hav_a origin destination) ≤ 1 := by
    constructor
    · linarith [Real.sqrt_nonneg (hav_a origin destination)]
    · rw [show (1 : ℝ) = Real.sqrt 1 from Real.sqrt_one.symm]
      exact Real.sqrt_le_sqrt h1
  rw [pyAsin, if_pos hb, bind_ok_eq, central_angle]

/-- The absolute rounding error of `pyRound (c * R) 3 / R` against `c`. -/
theorem pyRound_div_close (c R : ℝ) (hR : 0 < R) :
    |pyRound (c * R) 3 / R - c| ≤ 1 / (2 * 10 ^ 3 * R) := by
  have h := abs_pyRound_sub (c * R) 3
  have hrw : pyRound (c * R) 3 / R - c = (pyRound (c * R) 3 - c * R) / R := by
    field_simp
    ring
  rw [hrw, abs_div, abs_of_pos hR, ← div_div]
  gcongr

/-- Claim C4: `Coordinate` construction fails with a range error exactly
when latitude is outside `[-90, 90]` or longitude is outside `[-180, 180]`,
the error names the offending field and its value, construction fails for
latitudes 91 and -91 and longitudes 181 and -181, and succeeds at the
boundary values 90, -90, 180, -180. -/
theorem coordinate_validation :
    (∀ lat lon : ℝ, (∃ c, mkCoordinate lat lon = .ok c) ↔
      (-90 ≤ lat ∧ lat ≤ 90 ∧ -180 ≤ lon ∧ lon ≤ 180)) ∧
    (∀ lat lon : ℝ, ¬(-90 ≤ lat ∧ lat ≤ 90) →
      mkCoordinate lat lon = .error (.latitudeRange lat)) ∧
    (∀ lat lon : ℝ, (-90 ≤ lat ∧ lat ≤ 90) → ¬(-180 ≤ lon ∧ lon ≤ 180) →
      mkCoordinate lat lon = .error (.longitudeRange lon)) ∧
    mkCoordinate 91 0 = .error (.latitudeRange 91) ∧
    mkCoordinate (-91) 0 = .error (.latitudeRange (-91)) ∧
    mkCoordinate 0 181 = .error (.longitudeRange 181) ∧
    mkCoordinate 0 (-181) = .error (.longitudeRange (-181)) ∧
    mkCoordinate 90 180 = .ok ⟨90, 180⟩ ∧
    mkCoordinate (-90) (-180) = .ok ⟨-90, -180⟩ := by
  refine ⟨?_, ?_, ?_, ?_, ?_, ?_, ?_, ?_, ?_⟩
  · intro lat lon
    constructor
    · rintro ⟨c, hc⟩
      by_contra hrange
      rw [mkCoordinate] at hc
      by_cases hla : -90 ≤ lat ∧ lat ≤ 90
      · rw [if_neg (not_not_intro hla)] at hc
        by_cases hlo : -180 ≤ lon ∧ lon ≤ 180
        · exact hrange ⟨hla.1, hla.2, hlo.1, hlo.2⟩
        · rw [if_pos hlo] at hc
          exact Except.noConfusion hc
      · rw [if_pos hla] at hc
        exact Except.noConfusion hc
    · rintro ⟨h1, h2, h3, h4⟩
      refine ⟨⟨lat, lon⟩, ?_⟩
      rw [mkCoordinate, if_neg (not_not_intro ⟨h1, h2⟩), if_neg (not_not_intro ⟨h3, h4⟩)]
  · intro lat lon h
    rw [mkCoordinate, if_pos h]
  · intro lat lon h1 h2
    rw [mkCoordinate, if_neg (not_not_intro h1), if_pos h2]
  · rw [mkCoordinate, if_pos (by norm_num)]
  · rw [mkCoordinate, if_pos (by norm_num)]
  · rw [mkCoordinate, if_neg (by norm_num), if_pos (by norm_num)]
  · rw [mkCoordinate, if_neg (by norm_num), if_pos (by norm_num)]
  · rw [mkCoordinate, if_neg (by norm_num), if_neg (by norm_num)]
  · rw [mkCoordinate, if_neg (by norm_num), if_neg (by norm_num)]

/-- Witness for claim C4 at a concrete out-of-range input. -/
theorem coordinate_validation_witness :
    mkCoordinate 91 0 = .error (.latitudeRange 91) :=
  coordinate_validation.2.1 91 0 (by norm_num)

/-- Claim C8: for every `Coordinate` `p`, `haversine_distance p p` returns
zero in every unit (kilometers, statute miles, nautical miles). -/
theorem haversine_self_zero (p : Coordinate) :
    haversine_distance p p = .ok ⟨0, 0, 0⟩ := by
  have ha : hav_a p p = 0 := by
    rw [hav_a]
    simp
  have key := haversine_eq p p (le_of_eq ha.symm) (by rw [ha]; norm_num)
  rw [key, central_angle, ha, Real.sqrt_zero, Real.arcsin_zero]
  norm_num [pyRound_zero]

/-- Claim C7: `haversine_distance a b` equals `haversine_distance b a` in
all three units; the haversine computation is symmetric and rounding
preserves the equality. -/
theorem haversine_symm (a b : Coordinate) :
    haversine_distance a b = haversine_distance b a := by
  have k : ∀ u v : ℝ, sin ((u - v) / 2) ^ 2 = sin ((v - u) / 2) ^ 2 := by
    intro u v
    rw [show (u - v) / 2 = -((v - u) / 2) by ring, Real.sin_neg]
    ring
  have hsym : hav_a a b = hav_a b a := by
    rw [hav_a, hav_a, k (radians b.latitude) (radians a.latitude),
      k (radians b.longitude) (radians a.longitude)]
    ring
  rw [haversine_distance_def a b, haversine_distance_def b a, hsym]

/-- Claim C1: for any two valid Coordinates, `haversine_distance` raises no
exception and returns nonnegative (finite real) values in all three units,
and the central angle it uses agrees with the spec form
`2 * asin (sqrt (clamp (a, 0, 1)))`. -/
theorem haversine_total (origin destination : Coordinate)
    (ho : origin.Valid) (hd : destination.Valid) :
    haversine_distance origin destination =
      .ok ⟨pyRound (spec_central_angle origin destination * 6371.0) 3,
        pyRound (spec_central_angle origin destination * 3959.0) 3,
        pyRound (spec_central_angle origin destination * 3440.1) 3⟩ ∧
    0 ≤ pyRound (spec_central_angle origin destination * 6371.0) 3 ∧
    0 ≤ pyRound (spec_central_angle origin destination * 3959.0) 3 ∧
    0 ≤ pyRound (spec_central_angle origin destination * 3440.1) 3 := by
  have h0 := hav_a_nonneg _ _ ho hd
  have h1 := hav_a_le_one _ _ ho hd
  have hclamp : spec_central_angle origin destination = central_angle origin destination := by
    rw [spec_central_angle, central_angle, clamp, min_eq_right h1, max_eq_right h0]
  have hca := central_angle_nonneg origin destination
  rw [hclamp]
  exact ⟨haversine_eq _ _ h0 h1,
    pyRound_nonneg (mul_nonneg hca (by norm_num)) 3,
    pyRound_nonneg (mul_nonneg hca (by norm_num)) 3,
    pyRound_nonneg (mul_nonneg hca (by norm_num)) 3⟩

/-- Witness for claim C1 at the concrete valid pair (0, 0) and (45, 90). -/
theorem haversine_total_witness :
    haversine_distance ⟨0, 0⟩ ⟨45, 90⟩ =
      .ok ⟨pyRound (spec_central_angle ⟨0, 0⟩ ⟨45, 90⟩ * 6371.0) 3,
        pyRound (spec_central_angle ⟨0, 0⟩ ⟨45, 90⟩ * 3959.0) 3,
        pyRound (spec_central_angle ⟨0, 0⟩ ⟨45, 90⟩ * 3440.1) 3⟩ ∧
    0 ≤ pyRound (spec_central_angle ⟨0, 0⟩ ⟨45, 90⟩ * 6371.0) 3 ∧
    0 ≤ pyRound (spec_central_angle ⟨0, 0⟩ ⟨45, 90⟩ * 3959.0) 3 ∧
    0 ≤ pyRound (spec_central_angle ⟨0, 0⟩ ⟨45, 90⟩ * 3440.1) 3 :=
  haversine_total ⟨0, 0⟩ ⟨45, 90⟩
    (by refine ⟨by norm_num, by norm_num, by norm_num, by norm_num⟩)
    (by refine ⟨by norm_num, by norm_num, by norm_num, by norm_num⟩)

/-- Claim C9: for valid coordinates, dividing each returned distance by its
sphere radius recovers the shared central angle up to the error introduced
by rounding to three decimal places. -/
theorem haversine_units_proportional (origin destination : Coordinate)
    (ho : origin.Valid) (hd : destination.Valid) :
    ∃ r, haversine_distance origin destination = .ok r ∧
      |r.kilometers / 6371.0 - central_angle origin destination| ≤
        1 / (2 * 10 ^ 3 * 6371.0) ∧
      |r.statute_miles / 3959.0 - central_angle origin destination| ≤
        1 / (2 * 10 ^ 3 * 3959.0) ∧
      |r.nautical_miles / 3440.1 - central_angle origin destination| ≤
        1 / (2 * 10 ^ 3 * 3440.1) := by
  have h0 := hav_a_nonneg _ _ ho hd
  have h1 := hav_a_le_one _ _ ho hd
  refine ⟨_, haversine_eq _ _ h0 h1, ?_, ?_, ?_⟩ <;> dsimp only
  · exact pyRound_div_close (central_angle origin destination) 6371.0 (by norm_num)
  · exact pyRound_div_close (central_angle origin destination) 3959.0 (by norm_num)
  · exact pyRound_div_close (central_angle origin destination) 3440.1 (by norm_num)

/-- Witness for claim C9 at the concrete valid pair (0, 0) and (0, 180). -/
theorem haversine_units_proportional_witness :
    ∃ r, haversine_distance ⟨0, 0⟩ ⟨0, 180⟩ = .ok r ∧
      |r.kilometers / 6371.0 - central_angle ⟨0, 0⟩ ⟨0, 180⟩| ≤
        1 / (2 * 10 ^ 3 * 6371.0) ∧
      |r.statute_miles / 3959.0 - central_angle ⟨0, 0⟩ ⟨0, 180⟩| ≤
        1 / (2 * 10 ^ 3 * 3959.0) ∧
      |r.nautical_miles / 3440.1 - central_angle ⟨0, 0⟩ ⟨0, 180⟩| ≤
        1 / (2 * 10 ^ 3 * 3440.1) :=
  haversine_units_proportional ⟨0, 0⟩ ⟨0, 180⟩
    (by refine ⟨by norm_num, by norm_num, by norm_num, by norm_num⟩)
    (by refine ⟨by norm_num, by norm_num, by norm_num, by norm_num⟩)

/-- Binding an `Except.error` value keeps the error. -/
theorem bind_error_eq {ε α β : Type} (e : ε) (f : α → Except ε β) :
    (Except.error e : Except ε α).bind f = Except.error e := rfl

/-- Zero degrees is zero radians. -/
theorem radians_zero : radians 0 = 0 := by
  rw [radians]
  ring

/-- `calculate_initial_bearing` written through the named intermediates
`bearing_x` and `bearing_y`. -/
theorem calculate_initial_bearing_def (origin destination : Coordinate) :
    calculate_initial_bearing origin destination =
      (pySqrt (bearing_x origin destination ^ 2 + bearing_y origin destination ^ 2)).bind fun s1 =>
      (pyDiv (bearing_x origin destination) s1).bind fun q1 =>
      (pyAsin q1).bind fun t1 =>
      (pySqrt (bearing_x origin destination ^ 2 + bearing_y origin destination ^ 2)).bind fun s2 =>
      (pyDiv (bearing_x origin destination) s2).bind fun q2 =>
      (pyAsin q2).bind fun t2 =>
      (pySqrt (bearing_x origin destination ^ 2 + bearing_y origin destination ^ 2)).bind fun s3 =>
      (pyDiv (bearing_x origin destination) s3).bind fun q3 =>
      (pyAsin q3).bind fun t3 =>
      Except.ok (pyRound (pyMod (degrees (atan2 (bearing_x origin destination)
        (bearing_y origin destination)) + 360) 360) 1) := rfl

/-- When the azimuth vector is nonzero, every guard passes and the bearing
computation returns the normalized, rounded `atan2` value. -/
theorem bearing_ok (origin destination : Coordinate)
    (h : bearing_x origin destination ^ 2 + bearing_y origin destination ^ 2 ≠ 0) :
    calculate_initial_bearing origin destination =
      .ok (bearing_atan2_only origin destination) := by
  have hx2 : (0 : ℝ) ≤ bearing_x origin destination ^ 2 + bearing_y origin destination ^ 2 := by
    positivity
  have hpos : 0 < bearing_x origin destination ^ 2 + bearing_y origin destination ^ 2 :=
    lt_of_le_of_ne hx2 (Ne.symm h)
  have hspos : 0 < Real.sqrt (bearing_x origin destination ^ 2 + bearing_y origin destination ^ 2) :=
    Real.sqrt_pos.mpr hpos
  have hxle : |bearing_x origin destination| ≤
      Real.sqrt (bearing_x origin destination ^ 2 + bearing_y origin destination ^ 2) := by
    rw [← Real.sqrt_sq_eq_abs]
    exact Real.sqrt_le_sqrt (by nlinarith [sq_nonneg (bearing_y origin destination)])
  have hq : |bearing_x origin destination /
      Real.sqrt (bearing_x origin destination ^ 2 + bearing_y origin destination ^ 2)| ≤ 1 := by
    rw [abs_div, abs_of_pos hspos]
    exact (div_le_one hspos).mpr hxle
  have hq2 := abs_le.mp hq
  rw [calculate_initial_bearing_def, pySqrt, if_pos hx2]
  simp only [bind_ok_eq]
  rw [pyDiv, if_neg hspos.ne']
  simp only [bind_ok_eq]
  rw [pyAsin, if_pos hq2]
  simp only [bind_ok_eq]
  rw [bearing_atan2_only]

/-- When both azimuth components are zero, the first `asin`-based step of
the bearing computation divides by zero and the whole call raises
`ZeroDivisionError`. -/
theorem bearing_zero_div (origin destination : Coordinate)
    (hx : bearing_x origin destination = 0) (hy : bearing_y origin destination = 0) :
    calculate_initial_bearing origin destination = .error .zeroDivision := by
  rw [calculate_initial_bearing_def, hx, hy,
    show (0 : ℝ) ^ 2 + (0 : ℝ) ^ 2 = 0 by norm_num,
    pySqrt, if_pos le_rfl, Real.sqrt_zero, bind_ok_eq, pyDiv, if_pos rfl]
  rfl

/-- `atan2` with a positive second argument is a plain `arctan`. -/
theorem atan2_of_pos_right {y x : ℝ} (hx : 0 < x) : atan2 y x = arctan (y / x) := by
  rw [atan2, if_pos hx]

/-- `atan2` straight up: positive first argument, zero second argument. -/
theorem atan2_pos_left_zero {v : ℝ} (hv : 0 < v) : atan2 v 0 = π / 2 := by
  rw [atan2, if_neg (lt_irrefl 0), if_neg (fun h => lt_irrefl 0 h.1),
    if_neg (fun h => lt_irrefl 0 h.1), if_pos ⟨rfl, hv⟩]

/-- `atan2` straight down: negative first argument, zero second argument. -/
theorem atan2_neg_left_zero {v : ℝ} (hv : v < 0) : atan2 v 0 = -(π / 2) := by
  rw [atan2, if_neg (lt_irrefl 0), if_neg (fun h => lt_irrefl 0 h.1),
    if_neg (fun h => lt_irrefl 0 h.1), if_neg (fun h => lt_asymm hv h.2),
    if_pos ⟨rfl, hv⟩]

/-- Ninety degrees from a right angle in radians. -/
theorem degrees_pi_div_two : degrees (π / 2) = 90 := by
  rw [degrees, div_eq_iff Real.pi_ne_zero]
  ring

/-- Minus ninety degrees from a negative right angle in radians. -/
theorem degrees_neg_pi_div_two : degrees (-(π / 2)) = -90 := by
  rw [degrees, div_eq_iff Real.pi_ne_zero]
  ring

/-- Forty-five degrees from an eighth turn in radians. -/
theorem degrees_pi_div_four : degrees (π / 4) = 45 := by
  rw [degrees, div_eq_iff Real.pi_ne_zero]
  ring

/-- `pyMod` is the identity on `[0, b)`. -/
theorem pyMod_eq_self {a b : ℝ} (hb : 0 < b) (h0 : 0 ≤ a) (h1 : a < b) :
    pyMod a b = a := by
  rw [pyMod]
  have hfl : ⌊a / b⌋ = 0 := by
    rw [Int.floor_eq_iff]
    constructor
    · rw [Int.cast_zero]
      positivity
    · rw [Int.cast_zero, zero_add]
      exact (div_lt_one hb).mpr h1
  rw [hfl]
  push_cast
  ring

/-- Adding one modulus does not change `pyMod`. -/
theorem pyMod_add_self {a b : ℝ} (hb : b ≠ 0) : pyMod (a + b) b = pyMod a b := by
  rw [pyMod, pyMod, show (a + b) / b = a / b + 1 by field_simp, Int.floor_add_one]
  push_cast
  ring

/-- The value of Python `-180 % 360`. -/
theorem pyMod_neg_180 : pyMod (-180) 360 = 180 := by
  rw [pyMod]
  have hfl : ⌊(-180 : ℝ) / 360⌋ = -1 := by
    rw [Int.floor_eq_iff]
    constructor
    · rw [Int.cast_neg, Int.cast_one]
      norm_num
    · norm_num
  rw [hfl]
  push_cast
  ring

/-- `pyRound _ 1` fixes the integers. -/
theorem pyRound_intCast (k : ℤ) : pyRound (k : ℝ) 1 = k := by
  rw [pyRound, pow_one, show ((k : ℝ) * 10) = ((k * 10 : ℤ) : ℝ) by push_cast; ring,
    roundHalfEven_intCast]
  push_cast
  ring

/-- `arctan` lies strictly below the identity on positive reals. -/
theorem arctan_lt_self_of_pos {u : ℝ} (hu : 0 < u) : arctan u < u := by
  have h1 : 0 < arctan u := by
    have := Real.arctan_strictMono hu
    rwa [Real.arctan_zero] at this
  have h2 : arctan u < π / 2 := Real.arctan_lt_pi_div_two u
  have h3 := Real.lt_tan h1 h2
  rwa [Real.tan_arctan] at h3

/-- `arctan` lies strictly above the identity on negative reals. -/
theorem self_lt_arctan_of_neg {s : ℝ} (hs : s < 0) : s < arctan s := by
  have h1 := arctan_lt_self_of_pos (neg_pos.mpr hs)
  rw [Real.arctan_neg] at h1
  linarith

/-- On the equator the azimuth x-component is the sine of the longitude
difference. -/
theorem bearing_x_equator (lon1 lon2 : ℝ) :
    bearing_x ⟨0, lon1⟩ ⟨0, lon2⟩ = sin (radians lon2 - radians lon1) := by
  rw [bearing_x]
  dsimp only
  rw [radians_zero, Real.cos_zero, mul_one]

/-- On the equator the azimuth y-component vanishes. -/
theorem bearing_y_equator (lon1 lon2 : ℝ) :
    bearing_y ⟨0, lon1⟩ ⟨0, lon2⟩ = 0 := by
  rw [bearing_y]
  dsimp only
  rw [radians_zero, Real.sin_zero, Real.cos_zero]
  ring

/-- Eastward equator bearing: a positive sine of the longitude difference
gives a bearing of exactly 90 degrees. -/
theorem bearing_equator_pos (lon1 lon2 : ℝ)
    (hpos : 0 < sin (radians lon2 - radians lon1)) :
    calculate_initial_bearing ⟨0, lon1⟩ ⟨0, lon2⟩ = .ok 90 := by
  have hx := bearing_x_equator lon1 lon2
  have hy := bearing_y_equator lon1 lon2
  have hne : bearing_x ⟨0, lon1⟩ ⟨0, lon2⟩ ^ 2 + bearing_y ⟨0, lon1⟩ ⟨0, lon2⟩ ^ 2 ≠ 0 := by
    rw [hx, hy]
    have := pow_pos hpos 2
    nlinarith
  rw [bearing_ok _ _ hne, bearing_atan2_only, hx, hy, atan2_pos_left_zero hpos,
    degrees_pi_div_two, pyMod_add_self (by norm_num : (360 : ℝ) ≠ 0),
    pyMod_eq_self (by norm_num) (by norm_num) (by norm_num),
    show (90 : ℝ) = ((90 : ℤ) : ℝ) by norm_num, pyRound_intCast]

/-- Westward equator bearing: a negative sine of the longitude difference
gives a bearing of exactly 270 degrees. -/
theorem bearing_equator_neg (lon1 lon2 : ℝ)
    (hneg : sin (radians lon2 - radians lon1) < 0) :
    calculate_initial_bearing ⟨0, lon1⟩ ⟨0, lon2⟩ = .ok 270 := by
  have hx := bearing_x_equator lon1 lon2
  have hy := bearing_y_equator lon1 lon2
  have hne : bearing_x ⟨0, lon1⟩ ⟨0, lon2⟩ ^ 2 + bearing_y ⟨0, lon1⟩ ⟨0, lon2⟩ ^ 2 ≠ 0 := by
    rw [hx, hy]
    have : 0 < sin (radians lon2 - radians lon1) ^ 2 := by
      nlinarith [mul_pos_of_neg_of_neg hneg hneg]
    nlinarith
  rw [bearing_ok _ _ hne, bearing_atan2_only, hx, hy, atan2_neg_left_zero hneg,
    degrees_neg_pi_div_two, show (-90 : ℝ) + 360 = 270 by norm_num,
    pyMod_eq_self (by norm_num) (by norm_num) (by norm_num),
    show (270 : ℝ) = ((270 : ℤ) : ℝ) by norm_num, pyRound_intCast]

/-- Claim C6: whenever the azimuth components x and y are both exactly
zero — in particular whenever origin equals destination — the bearing
computation raises `ZeroDivisionError` at the `asin`-based division, so
callers see an arithmetic exception rather than a return value. -/
theorem bearing_zero_vector_raises :
    (∀ origin destination : Coordinate,
      bearing_x origin destination = 0 → bearing_y origin destination = 0 →
      calculate_initial_bearing origin destination = .error .zeroDivision) ∧
    ∀ p : Coordinate, calculate_initial_bearing p p = .error .zeroDivision := by
  constructor
  · exact fun o d hx hy => bearing_zero_div o d hx hy
  · intro p
    apply bearing_zero_div
    · rw [bearing_x, sub_self, Real.sin_zero, zero_mul]
    · rw [bearing_y, sub_self, Real.cos_zero, mul_one]
      ring

/-- Witness for claim C6 at the coincident pair (0, 0), (0, 0). -/
theorem bearing_zero_vector_raises_witness :
    bearing_x ⟨0, 0⟩ ⟨0, 0⟩ = 0 ∧ bearing_y ⟨0, 0⟩ ⟨0, 0⟩ = 0 ∧
    calculate_initial_bearing ⟨0, 0⟩ ⟨0, 0⟩ = .error .zeroDivision := by
  have hx : bearing_x ⟨0, 0⟩ ⟨0, 0⟩ = 0 := by
    rw [bearing_x, sub_self, Real.sin_zero, zero_mul]
  have hy : bearing_y ⟨0, 0⟩ ⟨0, 0⟩ = 0 := by
    rw [bearing_y, sub_self, Real.cos_zero, mul_one]
    ring
  exact ⟨hx, hy, bearing_zero_vector_raises.1 ⟨0, 0⟩ ⟨0, 0⟩ hx hy⟩

/-- Claim C2 (failing input): at the coincident pair (0, 0), (0, 0) the
code raises a bare `ZeroDivisionError` and never returns any value, so no
sentinel or distinguished undefined-bearing error is surfaced. -/
theorem bearing_coincident_zero_division :
    calculate_initial_bearing ⟨0, 0⟩ ⟨0, 0⟩ = .error .zeroDivision := by
  have hx : bearing_x ⟨0, 0⟩ ⟨0, 0⟩ = 0 := by
    rw [bearing_x, sub_self, Real.sin_zero, zero_mul]
  have hy : bearing_y ⟨0, 0⟩ ⟨0, 0⟩ = 0 := by
    rw [bearing_y, sub_self, Real.cos_zero, mul_one]
    ring
  exact bearing_zero_div ⟨0, 0⟩ ⟨0, 0⟩ hx hy

/-- Claim C10: when the azimuth vector is nonzero, the bearing computation
returns exactly the value of the simplified atan2-only implementation; the
two preceding asin-based computations never influence the result. -/
theorem bearing_refines_atan2 (origin destination : Coordinate)
    (h : bearing_x origin destination ^ 2 + bearing_y origin destination ^ 2 ≠ 0) :
    calculate_initial_bearing origin destination =
      .ok (bearing_atan2_only origin destination) :=
  bearing_ok origin destination h

/-- Witness for claim C10 at the pair (0, 0), (0, 90). -/
theorem bearing_refines_atan2_witness :
    calculate_initial_bearing ⟨0, 0⟩ ⟨0, 90⟩ =
      .ok (bearing_atan2_only ⟨0, 0⟩ ⟨0, 90⟩) :=
  bearing_refines_atan2 ⟨0, 0⟩ ⟨0, 90⟩ (by
    rw [bearing_x_equator, bearing_y_equator,
      show radians 90 - radians 0 = π / 2 by rw [radians, radians]; ring,
      Real.sin_pi_div_two]
    norm_num)

/-- Claim C3 (counterexample): for the distinct non-degenerate pair
(0, 0) and (45, 90) the two bearings are 45 and 270 degrees, which do not
differ by 180 degrees modulo 360 in either order. -/
theorem bearing_reverse_counterexample :
    calculate_initial_bearing ⟨0, 0⟩ ⟨45, 90⟩ = .ok 45 ∧
    calculate_initial_bearing ⟨45, 90⟩ ⟨0, 0⟩ = .ok 270 ∧
    pyMod (45 - 270) 360 ≠ 180 ∧ pyMod (270 - 45) 360 ≠ 180 := by
  have e1 : radians 90 - radians 0 = π / 2 := by rw [radians, radians]; ring
  have e2 : radians 45 = π / 4 := by rw [radians]; ring
  have e3 : radians 0 - radians 90 = -(π / 2) := by rw [radians, radians]; ring
  have hx : bearing_x ⟨0, 0⟩ ⟨45, 90⟩ = √2 / 2 := by
    rw [bearing_x]
    dsimp only
    rw [e1, e2, Real.sin_pi_div_two, Real.cos_pi_div_four, one_mul]
  have hy : bearing_y ⟨0, 0⟩ ⟨45, 90⟩ = √2 / 2 := by
    rw [bearing_y]
    dsimp only
    rw [e1, e2, radians_zero]
    norm_num [Real.sin_pi_div_four]
  have hne : bearing_x ⟨0, 0⟩ ⟨45, 90⟩ ^ 2 + bearing_y ⟨0, 0⟩ ⟨45, 90⟩ ^ 2 ≠ 0 := by
    rw [hx, hy, div_pow, Real.sq_sqrt (by norm_num : (0 : ℝ) ≤ 2)]
    norm_num
  have hsq : (0 : ℝ) < √2 / 2 := by positivity
  have fwd : calculate_initial_bearing ⟨0, 0⟩ ⟨45, 90⟩ = .ok 45 := by
    rw [bearing_ok _ _ hne, bearing_atan2_only, hx, hy,
      atan2_of_pos_right hsq, div_self hsq.ne', Real.arctan_one, degrees_pi_div_four,
      pyMod_add_self (by norm_num : (360 : ℝ) ≠ 0),
      pyMod_eq_self (by norm_num) (by norm_num) (by norm_num),
      show (45 : ℝ) = ((45 : ℤ) : ℝ) by norm_num, pyRound_intCast]
  have hx2 : bearing_x ⟨45, 90⟩ ⟨0, 0⟩ = -1 := by
    rw [bearing_x]
    dsimp only
    rw [e3, radians_zero, Real.sin_neg, Real.sin_pi_div_two, Real.cos_zero]
    ring
  have hy2 : bearing_y ⟨45, 90⟩ ⟨0, 0⟩ = 0 := by
    rw [bearing_y]
    dsimp only
    rw [e3, e2, radians_zero]
    norm_num [Real.cos_neg, Real.cos_pi_div_two]
  have hne2 : bearing_x ⟨45, 90⟩ ⟨0, 0⟩ ^ 2 + bearing_y ⟨45, 90⟩ ⟨0, 0⟩ ^ 2 ≠ 0 := by
    rw [hx2, hy2]
    norm_num
  have rev : calculate_initial_bearing ⟨45, 90⟩ ⟨0, 0⟩ = .ok 270 := by
    rw [bearing_ok _ _ hne2, bearing_atan2_only, hx2, hy2,
      atan2_neg_left_zero (by norm_num : (-1 : ℝ) < 0), degrees_neg_pi_div_two,
      show (-90 : ℝ) + 360 = 270 by norm_num,
      pyMod_eq_self (by norm_num) (by norm_num) (by norm_num),
      show (270 : ℝ) = ((270 : ℤ) : ℝ) by norm_num, pyRound_intCast]
  have m1 : pyMod (45 - 270 : ℝ) 360 = 135 := by
    rw [show (45 - 270 : ℝ) = -225 by norm_num, pyMod]
    have hfl : ⌊(-225 : ℝ) / 360⌋ = -1 := by
      rw [Int.floor_eq_iff]
      constructor
      · push_cast
        norm_num
      · push_cast
        norm_num
    rw [hfl]
    push_cast
    norm_num
  have m2 : pyMod (270 - 45 : ℝ) 360 = 225 := by
    rw [show (270 - 45 : ℝ) = 225 by norm_num]
    exact pyMod_eq_self (by norm_num) (by norm_num) (by norm_num)
  refine ⟨fwd, rev, ?_, ?_⟩
  · rw [m1]
    norm_num
  · rw [m2]
    norm_num

/-- Claim C3 (amended): for two distinct points on the equator whose
longitude difference has nonzero sine, the forward and reverse bearings
differ by exactly 180 degrees modulo 360. -/
theorem bearing_reverse_equator (lon1 lon2 : ℝ)
    (h : sin (radians lon2 - radians lon1) ≠ 0) :
    ∃ b1 b2 : ℝ, calculate_initial_bearing ⟨0, lon1⟩ ⟨0, lon2⟩ = .ok b1 ∧
      calculate_initial_bearing ⟨0, lon2⟩ ⟨0, lon1⟩ = .ok b2 ∧
      pyMod (b1 - b2) 360 = 180 ∧ pyMod (b2 - b1) 360 = 180 := by
  have hswap : sin (radians lon1 - radians lon2) = -sin (radians lon2 - radians lon1) := by
    rw [show radians lon1 - radians lon2 = -(radians lon2 - radians lon1) by ring, Real.sin_neg]
  have m180 : pyMod (180 : ℝ) 360 = 180 :=
    pyMod_eq_self (by norm_num) (by norm_num) (by norm_num)
  rcases h.lt_or_lt with hneg | hpos
  · refine ⟨270, 90, bearing_equator_neg lon1 lon2 hneg,
      bearing_equator_pos lon2 lon1 (by rw [hswap]; linarith), ?_, ?_⟩
    · rw [show (270 - 90 : ℝ) = 180 by norm_num]
      exact m180
    · rw [show (90 - 270 : ℝ) = -180 by norm_num]
      exact pyMod_neg_180
  · refine ⟨90, 270, bearing_equator_pos lon1 lon2 hpos,
      bearing_equator_neg lon2 lon1 (by rw [hswap]; linarith), ?_, ?_⟩
    · rw [show (90 - 270 : ℝ) = -180 by norm_num]
      exact pyMod_neg_180
    · rw [show (270 - 90 : ℝ) = 180 by norm_num]
      exact m180

/-- Witness for the amended claim C3 at the equator pair (0, 0), (0, 90). -/
theorem bearing_reverse_equator_witness :
    ∃ b1 b2 : ℝ, calculate_initial_bearing ⟨0, 0⟩ ⟨0, 90⟩ = .ok b1 ∧
      calculate_initial_bearing ⟨0, 90⟩ ⟨0, 0⟩ = .ok b2 ∧
      pyMod (b1 - b2) 360 = 180 ∧ pyMod (b2 - b1) 360 = 180 :=
  bearing_reverse_equator 0 90 (by
    rw [show radians 90 - radians 0 = π / 2 by rw [radians, radians]; ring,
      Real.sin_pi_div_two]
    norm_num)

/-- Rounding a value of `[0, 360)` to one decimal place cannot exceed 360. -/
theorem pyRound_le_360 {v : ℝ} (h1 : v < 360) : pyRound v 1 ≤ 360 := by
  rw [pyRound, pow_one]
  have habs := abs_le.mp (abs_roundHalfEven_sub (v * 10))
  have hlt : (roundHalfEven (v * 10) : ℝ) < 3601 := by linarith [habs.2]
  have hint : roundHalfEven (v * 10) < (3601 : ℤ) := by exact_mod_cast hlt
  have hle : (roundHalfEven (v * 10) : ℝ) ≤ 3600 := by
    exact_mod_cast (by omega : roundHalfEven (v * 10) ≤ 3600)
  linarith

/-- Claim C5 (amended): whenever the bearing computation returns a value,
that value lies in the closed interval `[0, 360]`; the upper endpoint 360
is attainable through the final rounding step. -/
theorem bearing_range_closed (origin destination : Coordinate) (b : ℝ)
    (h : calculate_initial_bearing origin destination = .ok b) :
    0 ≤ b ∧ b ≤ 360 := by
  by_cases hz : bearing_x origin destination ^ 2 + bearing_y origin destination ^ 2 = 0
  · have hx2 : bearing_x origin destination ^ 2 = 0 :=
      le_antisymm (by nlinarith [sq_nonneg (bearing_y origin destination)]) (sq_nonneg _)
    have hy2 : bearing_y origin destination ^ 2 = 0 :=
      le_antisymm (by nlinarith [sq_nonneg (bearing_x origin destination)]) (sq_nonneg _)
    rw [bearing_zero_div origin destination (sq_eq_zero_iff.mp hx2)
      (sq_eq_zero_iff.mp hy2)] at h
    exact Except.noConfusion h
  · rw [bearing_ok origin destination hz] at h
    injection h with hb
    subst hb
    rw [bearing_atan2_only]
    obtain ⟨hv0, hv1⟩ := @pyMod_nonneg_lt (degrees (atan2 (bearing_x origin destination)
      (bearing_y origin destination)) + 360) 360 (by norm_num)
    exact ⟨pyRound_nonneg hv0 1, pyRound_le_360 hv1⟩

/-- Witness for the amended claim C5 at the pair (0, 0), (0, 90), whose
bearing evaluates to 90. -/
theorem bearing_range_closed_witness :
    calculate_initial_bearing ⟨0, 0⟩ ⟨0, 90⟩ = .ok 90 ∧ (0 : ℝ) ≤ 90 ∧ (90 : ℝ) ≤ 360 := by
  have h : calculate_initial_bearing ⟨0, 0⟩ ⟨0, 90⟩ = .ok 90 :=
    bearing_equator_pos 0 90 (by
      rw [show radians 90 - radians 0 = π / 2 by rw [radians, radians]; ring,
        Real.sin_pi_div_two]
      norm_num)
  exact ⟨h, (bearing_range_closed ⟨0, 0⟩ ⟨0, 90⟩ 90 h).1,
    (bearing_range_closed ⟨0, 0⟩ ⟨0, 90⟩ 90 h).2⟩

/-- Claim C5 (counterexample): the bearing from (0, 0) to (45, -0.025)
is a hair under 360 degrees before rounding, and the final rounding to one
decimal place returns exactly 360, which is not strictly below 360. -/
theorem bearing_rounds_to_360 :
    calculate_initial_bearing ⟨0, 0⟩ ⟨45, -(1 / 40)⟩ = .ok 360 ∧ ¬((360 : ℝ) < 360) := by
  refine ⟨?_, by norm_num⟩
  have e2 : radians 45 = π / 4 := by rw [radians]; ring
  have ed : radians (-(1 / 40)) - radians 0 = -(π / 7200) := by rw [radians, radians]; ring
  have hx : bearing_x ⟨0, 0⟩ ⟨45, -(1 / 40)⟩ = sin (-(π / 7200)) * (√2 / 2) := by
    rw [bearing_x]
    dsimp only
    rw [ed, e2, Real.cos_pi_div_four]
  have hy : bearing_y ⟨0, 0⟩ ⟨45, -(1 / 40)⟩ = √2 / 2 := by
    rw [bearing_y]
    dsimp only
    rw [ed, e2, radians_zero]
    norm_num [Real.sin_pi_div_four]
  have h2pos : (0 : ℝ) < √2 / 2 := by positivity
  have hpi := Real.pi_pos
  have hu_pos : (0 : ℝ) < π / 7200 := by positivity
  have hu_lt_pi : π / 7200 < π := div_lt_self Real.pi_pos (by norm_num)
  have hsin_pos : 0 < sin (π / 7200) := Real.sin_pos_of_pos_of_lt_pi hu_pos hu_lt_pi
  have hsin_lt : sin (π / 7200) < π / 7200 := Real.sin_lt hu_pos
  have hs_neg : sin (-(π / 7200)) < 0 := by
    rw [Real.sin_neg]
    linarith
  have hs_gt : -(π / 7200) < sin (-(π / 7200)) := by
    rw [Real.sin_neg]
    linarith
  have hne : bearing_x ⟨0, 0⟩ ⟨45, -(1 / 40)⟩ ^ 2 + bearing_y ⟨0, 0⟩ ⟨45, -(1 / 40)⟩ ^ 2 ≠ 0 := by
    rw [hx, hy]
    have h22 : (0 : ℝ) < (√2 / 2) ^ 2 := by positivity
    nlinarith [sq_nonneg (sin (-(π / 7200)) * (√2 / 2))]
  have harg : sin (-(π / 7200)) * (√2 / 2) / (√2 / 2) = sin (-(π / 7200)) := by
    rw [mul_div_assoc, div_self h2pos.ne', mul_one]
  have ht_neg : arctan (sin (-(π / 7200))) < 0 := by
    have hmono := Real.arctan_strictMono hs_neg
    rwa [Real.arctan_zero] at hmono
  have ht_gt : -(π / 7200) < arctan (sin (-(π / 7200))) :=
    lt_trans hs_gt (self_lt_arctan_of_neg hs_neg)
  have hd_lo : -(1 / 40 : ℝ) < degrees (arctan (sin (-(π / 7200)))) := by
    rw [degrees, show -(1 / 40 : ℝ) = -(π / 7200) * 180 / π by field_simp; ring]
    gcongr
  have hd_hi : degrees (arctan (sin (-(π / 7200)))) < 0 := by
    rw [degrees]
    exact div_neg_of_neg_of_pos (mul_neg_of_neg_of_pos ht_neg (by norm_num)) hpi
  have hmod : pyMod (degrees (arctan (sin (-(π / 7200)))) + 360) 360 =
      degrees (arctan (sin (-(π / 7200)))) + 360 :=
    pyMod_eq_self (by norm_num) (by linarith) (by linarith)
  have hlo : (359975 / 100 : ℝ) < (degrees (arctan (sin (-(π / 7200)))) + 360) * 10 := by
    linarith
  have hhi : (degrees (arctan (sin (-(π / 7200)))) + 360) * 10 < 3600 := by linarith
  have hround : pyRound (degrees (arctan (sin (-(π / 7200)))) + 360) 1 = 360 := by
    rw [pyRound, pow_one]
    have hfl : ⌊(degrees (arctan (sin (-(π / 7200)))) + 360) * 10⌋ = 3599 := by
      rw [Int.floor_eq_iff]
      constructor
      · push_cast
        linarith
      · push_cast
        linarith
    have hfr : Int.fract ((degrees (arctan (sin (-(π / 7200)))) + 360) * 10) ≠ 1 / 2 := by
      rw [← Int.self_sub_floor, hfl]
      push_cast
      intro hc
      linarith
    rw [roundHalfEven, if_neg hfr, round_eq]
    have hfl2 : ⌊(degrees (arctan (sin (-(π / 7200)))) + 360) * 10 + 1 / 2⌋ = 3600 := by
      rw [Int.floor_eq_iff]
      constructor
      · push_cast
        linarith
      · push_cast
        linarith
    rw [hfl2]
    push_cast
    norm_num
  rw [bearing_ok _ _ hne, bearing_atan2_only, hx, hy, atan2_of_pos_right h2pos,
    harg, hmod, hround]

end GreatCircle
